import Mathlib

/-!
Verification of the chunked-transcription assembly engine of the
Whisper-CPP-Act repository (files `transcriptor_cpp.py`,
`transcriptor_python.py`, `ia.py`).

All timestamps are modelled at millisecond granularity as natural numbers
(the Python code stores them as exact integer microseconds inside
`timedelta` objects, and every value arising in the pipeline is an exact
multiple of one millisecond, so `Nat` milliseconds is a faithful carrier).
Text is modelled as `List Char`.

Where the Python code routes an exact integer quantity through IEEE-754
double arithmetic (`int(td.total_seconds() * 1000)` in `to_str` /
`format_srt_time`), the two correctly-rounded double operations are
modelled exactly on `ℚ` by `flRound` below.
-/

namespace WhisperAct

/-! ## Characters and decimal rendering -/

/-- Numeric value of a decimal digit character (models `int(...)` on a digit). -/
def digitVal (c : Char) : Nat := c.toNat - 48

/-- Python `\s` class: space, tab, newline, carriage return, vertical tab, form feed. -/
def pyIsSpace (c : Char) : Bool :=
  c = ' ' || c = '\t' || c = '\n' || c = '\r' || c = '\x0b' || c = '\x0c'

/-- Fuelled digit extraction for `decimalDigits` (structural recursion so
that the kernel can evaluate it; the fuel is always sufficient). -/
def decimalDigitsAux : Nat → Nat → List Char
  | 0, _ => []
  | fuel + 1, n =>
    if n < 10 then [Nat.digitChar n]
    else decimalDigitsAux fuel (n / 10) ++ [Nat.digitChar (n % 10)]

/-- Decimal rendering of a natural number, most significant digit first
(the digit string produced by Python `str(n)` / `f-string` formatting). -/
def decimalDigits (n : Nat) : List Char :=
  decimalDigitsAux (n + 1) n

/-- Python `f"{n:02d}"`: decimal rendering zero-padded to width 2. -/
def pad2 (n : Nat) : List Char :=
  if n < 10 then '0' :: decimalDigits n else decimalDigits n

/-- Python `f"{n:03d}"`: decimal rendering zero-padded to width 3. -/
def pad3 (n : Nat) : List Char :=
  if n < 10 then '0' :: '0' :: decimalDigits n
  else if n < 100 then '0' :: decimalDigits n
  else decimalDigits n

/-! ## Time codec

`to_timedelta` (transcriptor_cpp.py lines 211-213) parses a captured
`HH:MM:SS,mmm` group with the regex `(\d{2}):(\d{2}):(\d{2}),(\d{3})` into
an exact `timedelta`; we return the value in milliseconds.  The input it
receives is exactly the 12-character captured group, so a full match of the
12-character shape is the faithful model. -/

/-- Parse a `HH:MM:SS,mmm` timestamp into milliseconds, `none` when the
regex `(\d{2}):(\d{2}):(\d{2}),(\d{3})` does not match
(models `to_timedelta`, transcriptor_cpp.py lines 211-213). -/
def to_timedelta : List Char → Option Nat
  | [h1, h2, ':', m1, m2, ':', s1, s2, ',', x1, x2, x3] =>
    if h1.isDigit && h2.isDigit && m1.isDigit && m2.isDigit &&
       s1.isDigit && s2.isDigit && x1.isDigit && x2.isDigit && x3.isDigit then
      some ((10 * digitVal h1 + digitVal h2) * 3600000 +
            (10 * digitVal m1 + digitVal m2) * 60000 +
            (10 * digitVal s1 + digitVal s2) * 1000 +
            (100 * digitVal x1 + 10 * digitVal x2 + digitVal x3))
    else none
  | _ => none

/-- Render a millisecond count as `HH:MM:SS,mmm`
(the f-string of `to_str`, transcriptor_cpp.py lines 215-221, and of
`format_srt_time`, transcriptor_python.py lines 157-165, applied to the
already-computed `total_ms`). -/
def renderMs (totalMs : Nat) : List Char :=
  pad2 (totalMs / 3600000) ++ ':' ::
  (pad2 (totalMs % 3600000 / 60000) ++ ':' ::
  (pad2 (totalMs % 60000 / 1000) ++ ',' :: pad3 (totalMs % 1000)))

/-! ### The floating-point step

Both `to_str` and `format_srt_time` compute
`total_ms = int(td.total_seconds() * 1000)`.  For a `timedelta` holding
exactly `k` milliseconds (`1000 * k` microseconds), CPython evaluates the
correctly rounded binary64 double of `1000*k / 10^6 = k / 1000`, multiplies
by `1000.0` (again correctly rounded by IEEE-754), and truncates with
`int(...)`.  The two roundings are modelled exactly on naturals: a positive
double is a 53-bit significand times a power of two, and rounding a
fraction to it is round-half-even at the right scale.  (Our magnitudes are
far from overflow and from subnormals, so exponents need no clamping.) -/

/-- Round-half-even of the fraction `a / b` (for `b > 0`): the rounding
IEEE-754 applies to an exact quotient or product. -/
def rneNat (a b : Nat) : Nat :=
  let q := a / b
  let r := a % b
  if 2 * r < b then q
  else if b < 2 * r then q + 1
  else if q % 2 = 0 then q else q + 1

/-- Smallest number of doublings of `a` needed to reach `bound`
(fuelled linear search; fuel 64 covers every value arising here). -/
def doublings (a bound : Nat) : Nat → Nat
  | 0 => 0
  | fuel + 1 => if bound ≤ a then 0 else doublings (2 * a) bound fuel + 1

/-- Smallest `h` with `a < bound * 2 ^ h` (fuelled linear search). -/
def expUntilLt (a bound : Nat) : Nat → Nat
  | 0 => 0
  | fuel + 1 => if a < bound then 0 else expUntilLt a (2 * bound) fuel + 1

/-- The `total_ms` the code computes from a `timedelta` of `k` exact
milliseconds: `int(float64(k / 1000) * 1000.0)` with both operations
correctly rounded to nearest, ties to even.

With `f` the scaling that brings `k / 1000` into `[2^52, 2^53)`, the first
rounding yields the significand `m1 = rne(k * 2^f / 1000)`, so the double
is `m1 / 2^f`.  Multiplying by `1000` gives the exact value
`m1 * 1000 / 2^f`; with `m1 * 1000` in `[2^(52+h), 2^(53+h))`, the second
rounding yields the significand `m2 = rne(m1 * 1000 / 2^h)` and the double
`m2 / 2^(f-h)`.  `int(...)` truncates, i.e. natural division. -/
def floatTotalMs (k : Nat) : Nat :=
  if k = 0 then 0
  else
    let f := doublings k (2 ^ 52 * 1000) 64
    let m1 := rneNat (k * 2 ^ f) 1000
    let h := expUntilLt (m1 * 1000) (2 ^ 53) 64
    let m2 := rneNat (m1 * 1000) (2 ^ h)
    m2 / 2 ^ (f - h)

/-- `format_srt_time` (transcriptor_python.py lines 157-165) / `to_str`
(transcriptor_cpp.py lines 215-221) on an input of `k` exact milliseconds. -/
def format_srt_time (k : Nat) : List Char :=
  renderMs (floatTotalMs k)

/-! ## Subtitle shifting and truncation (whisper.cpp revision)

`shift_and_clean_line` (transcriptor_cpp.py lines 224-252) operates on the
two parsed `timedelta` values of one `start --> end` line.  All comparisons
and additions are exact microsecond arithmetic on `timedelta`s, so `Nat`
milliseconds is faithful (every value involved is a whole millisecond). -/

/-- Truncation steps 1 and 2 of `shift_and_clean_line`
(transcriptor_cpp.py lines 230-242): if the block starts at or after the
cap, clamp both ends to the cap; else if it merely ends after the cap,
clamp only the end. -/
def truncate_block (s e cap : Nat) : Nat × Nat :=
  if s ≥ cap then (cap, cap)
  else if e > cap then (s, cap)
  else (s, e)

/-- `shift_and_clean_line` (transcriptor_cpp.py lines 224-252): truncate
(steps 1-2), then shift both ends by the offset (step 3), then repair an
inverted pair by raising the end to the start (step 4).  Returns the
shifted `(start, end)` pair in milliseconds. -/
def shift_and_clean_line (s e cap off : Nat) : Nat × Nat :=
  let t := truncate_block s e cap
  let ss := t.1 + off
  let ee := t.2 + off
  (ss, if ee < ss then ss else ee)

/-- `max_seconds_cap` (transcriptor_cpp.py lines 363-364): the truncation
cap passed to `shift_srt_time` is the chunk duration, except that the last
chunk gets the sentinel `99999.0` seconds instead. -/
def max_seconds_cap (is_last_chunk : Bool) (chunkMs : Nat) : Nat :=
  if is_last_chunk then 99999000 else chunkMs

/-! ## Python `str.strip` -/

/-- Python `str.strip()`: remove leading and trailing whitespace. -/
def strip (t : List Char) : List Char :=
  ((t.dropWhile pyIsSpace).reverse.dropWhile pyIsSpace).reverse

/-! ## SRT re-indexing, whisper.cpp revision (line level)

`reindex_srt` (transcriptor_cpp.py lines 373-380) is applied through
`re.sub(r"^\d+\s*$", reindex_srt, srt_content, flags=re.MULTILINE)`: every
line consisting of digits followed by optional whitespace is replaced by
the next value of the global counter `srt_block_counter`.  Because `\s`
also matches newlines and `$` matches at every line end, a greedy match
additionally absorbs any whitespace-only lines that immediately follow the
digit line (their newlines are part of the matched span and disappear with
the replacement).  We model the content as its list of lines. -/

/-- A line matched by `^\d+\s*$`: one or more digits, then only whitespace. -/
def isIndexLine (l : List Char) : Bool :=
  !(l.takeWhile Char.isDigit).isEmpty &&
    (l.dropWhile Char.isDigit).all pyIsSpace

/-- A whitespace-only line (absorbed by a greedy `\d+\s*$` match that
starts on the previous line). -/
def isBlankLine (l : List Char) : Bool := l.all pyIsSpace

/-- The `re.sub` re-indexing pass over the lines of one segment's SRT
content, threading the global block counter: a digit line is replaced by
the decimal rendering of the counter, and the match absorbs any
immediately following whitespace-only lines (tracked by the `skip` flag);
other lines pass through. -/
def reindexAux (c : Nat) (skip : Bool) : List (List Char) → List (List Char) × Nat
  | [] => ([], c)
  | l :: ls =>
    if skip && isBlankLine l then reindexAux c true ls
    else if isIndexLine l then
      let next := reindexAux (c + 1) true ls
      (decimalDigits c :: next.1, next.2)
    else
      let next := reindexAux c false ls
      (l :: next.1, next.2)

/-- The whole `re.sub(r"^\d+\s*$", reindex_srt, content, flags=re.MULTILINE)`
pass over the lines of one segment's content, starting the counter at `c`. -/
def reindexLines (c : Nat) (ls : List (List Char)) : List (List Char) × Nat :=
  reindexAux c false ls

/-- The indices handed out by `reindexAux c skip` on the same input, in
order (a specification companion following the same recursion). -/
def assignedIndicesAux (c : Nat) (skip : Bool) : List (List Char) → List Nat
  | [] => []
  | l :: ls =>
    if skip && isBlankLine l then assignedIndicesAux c true ls
    else if isIndexLine l then
      c :: assignedIndicesAux (c + 1) true ls
    else
      assignedIndicesAux c false ls

/-- The indices handed out by the re-indexing pass, in order. -/
def assignedIndices (c : Nat) (ls : List (List Char)) : List Nat :=
  assignedIndicesAux c false ls

/-- The per-segment SRT merge loop of `transcribe_with_whisper_cpp`
(transcriptor_cpp.py lines 350-390): a failed segment (whisper-cli error or
missing `.srt` artifact) contributes nothing and leaves the counter
untouched; a successful segment's already-shifted SRT lines are re-indexed
with the shared counter and appended to the final track followed by a blank
separator line (the trailing `"\n\n"`). -/
def mergeSegmentsCpp (c : Nat) : List (Option (List (List Char))) → List (List Char) × Nat
  | [] => ([], c)
  | none :: rest => mergeSegmentsCpp c rest
  | some seg :: rest =>
    let this := reindexLines c seg
    let others := mergeSegmentsCpp this.2 rest
    (this.1 ++ [] :: others.1, others.2)

/-! ## SRT assembly, transformers revision (block level)

`transcribe_with_transformers` (transcriptor_python.py lines 206-229)
builds the segment's SRT text block by block from the pipeline's `chunks`:
a chunk with a missing (`None`) timestamp or empty stripped text is
skipped; otherwise both timestamps are shifted by the segment offset
(without any truncation or repair) and the block is emitted with the next
value of the global counter. -/

/-- One timestamped chunk as returned by the transformers pipeline for one
segment: an optional `(start, end)` timestamp (milliseconds, segment-local)
and the raw caption text. -/
structure RawBlock where
  timestamp : Option (Nat × Nat)
  text : List Char
  deriving DecidableEq

/-- One emitted block of the final subtitle track. -/
structure SrtBlock where
  index : Nat
  start : Nat
  stop : Nat
  text : List Char
  deriving DecidableEq

/-- The inner block loop of `transcribe_with_transformers`
(transcriptor_python.py lines 213-229): skip blocks without a timestamp or
with whitespace-only text, shift the rest by the segment offset, and number
them with the running global counter. -/
def emitBlocks (off : Nat) : List RawBlock → Nat → List SrtBlock × Nat
  | [], c => ([], c)
  | ⟨none, _⟩ :: bs, c => emitBlocks off bs c
  | ⟨some (st, en), text⟩ :: bs, c =>
    if strip text = [] then emitBlocks off bs c
    else
      let rest := emitBlocks off bs (c + 1)
      (⟨c, st + off, en + off, strip text⟩ :: rest.1, rest.2)

/-! ## Transcription driver and transcript assembler

One engine invocation per segment either fails (non-zero exit of
`whisper-cli` / an exception raised inside the `transcriber(...)` call) or
succeeds, with the plain-text and subtitle artifacts it managed to
produce. -/

/-- Outcome of invoking the external engine on one segment, whisper.cpp
revision: failure, or success with the optional `.txt` and `.srt`
artifacts found next to the chunk (either may be missing). -/
inductive EngineOutcome where
  | fail
  | ok (txt : Option (List Char)) (srt : Option (List (List Char)))
  deriving DecidableEq

/-- The plain-text assembly of `transcribe_with_whisper_cpp`
(transcriptor_cpp.py lines 308-348): a failed chunk is skipped
(`continue`), a present `.txt` artifact is stripped and appended followed
by a blank-line separator, a missing artifact only logs a warning. -/
def driveTxt : List EngineOutcome → List Char
  | [] => []
  | .fail :: rest => driveTxt rest
  | .ok none _ :: rest => driveTxt rest
  | .ok (some t) _ :: rest => (strip t ++ ['\n', '\n']) ++ driveTxt rest

/-- Outcome of one segment in the transformers revision: failure (an
exception inside the `transcriber(...)` block) or success with the
recognised full text. -/
inductive PyOutcome where
  | fail
  | ok (text : List Char)
  deriving DecidableEq

/-- The plain-text assembly of `transcribe_with_transformers`
(transcriptor_python.py lines 197-204 and 236-242): a failed chunk is
skipped; a successful chunk's stripped text is appended followed by a
blank-line separator unless it is empty. -/
def pyDriveTxt : List PyOutcome → List Char
  | [] => []
  | .fail :: rest => pyDriveTxt rest
  | .ok t :: rest =>
    if strip t = [] then pyDriveTxt rest
    else (strip t ++ ['\n', '\n']) ++ pyDriveTxt rest

/-- The whole per-segment loop of `transcribe_with_whisper_cpp` as a total
function: per-segment engine failures are absorbed by `continue`
(transcriptor_cpp.py lines 313-331), so the function always runs to
completion and never turns a segment failure into a job failure
(`log_error` is called with `exit_app=False`). -/
def transcribe_with_whisper_cpp (outs : List EngineOutcome) :
    Except (List Char) (List Char × (List (List Char) × Nat)) :=
  .ok (driveTxt outs, mergeSegmentsCpp 1 (outs.map fun o =>
    match o with
    | .fail => none
    | .ok _ none => none
    | .ok _ (some srt) => some srt))

/-! ## Temporary-file lifecycle -/

/-- Which of one segment's temporary files still exist after the driver
has consumed that segment. -/
structure SegTemps where
  media : Bool
  txt : Bool
  srt : Bool
  deriving DecidableEq

/-- Temporary files of segment `i` left behind by
`transcribe_with_whisper_cpp` once the loop moves on (transcriptor_cpp.py
lines 308-390): on failure the partial `.txt`/`.srt` artifacts are
unlinked (lines 323-327); on success each present artifact is read, merged
and unlinked (lines 339-343 and 355-385); the chunk's media file is never
unlinked anywhere in the function. -/
def cppSegTempsAfter (out : EngineOutcome) : SegTemps :=
  match out with
  | .fail => { media := true, txt := false, srt := false }
  | .ok _ _ => { media := true, txt := false, srt := false }

/-- Temporary files of segment `i` left behind by
`transcribe_with_transformers` once the loop moves on
(transcriptor_python.py lines 243-248): the `finally` block unlinks the
chunk's media file whether the segment succeeded or failed; this revision
creates no per-segment artifact files (results are in memory). -/
def pySegTempsAfter (out : PyOutcome) : SegTemps :=
  match out with
  | .fail => { media := false, txt := false, srt := false }
  | .ok _ => { media := false, txt := false, srt := false }

/-! ## Segmenter (transformers revision)

`split_audio` (transcriptor_python.py lines 81-110) slices the loaded
audio with `for i in range(0, total_ms, chunk_length_ms)` and exports
`audio[i:i+chunk_length_ms]` for each `i`; a pydub slice `audio[a:b]` has
duration `min(b, total) - a` milliseconds. -/

/-- Python `range(i, D, C)` for a positive step `C` (empty when `C = 0`,
which Python would reject with a `ValueError`), with structural fuel so
the kernel can evaluate it; `fuel = D - i` always suffices. -/
def rangeStepAux (C D : Nat) : Nat → Nat → List Nat
  | 0, _ => []
  | fuel + 1, i => if 0 < C ∧ i < D then i :: rangeStepAux C D fuel (i + C) else []

/-- Python `range(i, D, C)` for a positive step `C`. -/
def rangeStep (C D i : Nat) : List Nat :=
  rangeStepAux C D (D - i) i

/-- `split_audio` (transcriptor_python.py lines 81-110): the ordered list
of `(start_ms, duration_ms)` slices exported as `part_1.mp3`,
`part_2.mp3`, ... -/
def split_audio (D C : Nat) : List (Nat × Nat) :=
  (rangeStep C D 0).map fun i => (i, min C (D - i))

/-! ## Concrete scenario data -/

/-- The (already shifted, stripped) SRT lines of one well-formed segment
with exactly two subtitle blocks, as whisper.cpp writes them. -/
def demoSeg : List (List Char) :=
  [['1'], ("00:00:00,000 --> 00:00:01,000").data, ("Halo dunia").data, [],
   ['2'], ("00:00:01,000 --> 00:00:02,000").data, ("Apa kabar").data]

/-- A segment whose first block's caption text is the bare number `42` on
its own line. -/
def numericSeg : List (List Char) :=
  [['1'], ("00:00:00,000 --> 00:00:01,000").data, ['4', '2'], [],
   ['2'], ("00:00:01,000 --> 00:00:02,000").data, ("teks biasa").data]

/-! # Supporting lemmas -/

lemma decimalDigitsAux_small (fuel n : Nat) (h : n < 10) :
    decimalDigitsAux (fuel + 1) n = [Nat.digitChar n] := by
  rw [decimalDigitsAux, if_pos h]

lemma decimalDigitsAux_ge (fuel n : Nat) (h : ¬ n < 10) :
    decimalDigitsAux (fuel + 1) n =
      decimalDigitsAux fuel (n / 10) ++ [Nat.digitChar (n % 10)] := by
  rw [decimalDigitsAux, if_neg h]

lemma decimalDigits_small (n : Nat) (h : n < 10) :
    decimalDigits n = [Nat.digitChar n] :=
  decimalDigitsAux_small n n h

lemma decimalDigits_mid (n : Nat) (h1 : 10 ≤ n) (h2 : n < 100) :
    decimalDigits n = [Nat.digitChar (n / 10), Nat.digitChar (n % 10)] := by
  obtain ⟨m, rfl⟩ : ∃ m, n = m + 10 := ⟨n - 10, by omega⟩
  have hn : ¬ m + 10 < 10 := by omega
  have hdiv : (m + 10) / 10 < 10 := by omega
  show decimalDigitsAux (m + 10 + 1) (m + 10) = _
  rw [decimalDigitsAux_ge (m + 10) (m + 10) hn,
    show m + 10 = (m + 9) + 1 from rfl,
    decimalDigitsAux_small (m + 9) ((m + 9 + 1) / 10) (by omega)]
  simp

lemma pad2_eq (n : Nat) (h : n < 100) :
    pad2 n = [Nat.digitChar (n / 10), Nat.digitChar (n % 10)] := by
  unfold pad2
  by_cases h10 : n < 10
  · rw [if_pos h10, decimalDigits_small n h10]
    have : n / 10 = 0 := by omega
    have hm : n % 10 = n := by omega
    rw [this, hm]
    rfl
  · rw [if_neg h10, decimalDigits_mid n (by omega) h]

lemma pad3_eq (n : Nat) (h : n < 1000) :
    pad3 n = [Nat.digitChar (n / 100), Nat.digitChar (n / 10 % 10),
      Nat.digitChar (n % 10)] := by
  unfold pad3
  by_cases h10 : n < 10
  · rw [if_pos h10, decimalDigits_small n h10]
    have e1 : n / 100 = 0 := by omega
    have e2 : n / 10 % 10 = 0 := by omega
    have e3 : n % 10 = n := by omega
    rw [e1, e2, e3]
    rfl
  · by_cases h100 : n < 100
    · rw [if_neg h10, if_pos h100, decimalDigits_mid n (by omega) h100]
      have e1 : n / 100 = 0 := by omega
      have e2 : n / 10 % 10 = n / 10 := by omega
      rw [e1, e2]
      rfl
    · rw [if_neg h10, if_neg h100]
      obtain ⟨m, rfl⟩ : ∃ m, n = m + 100 := ⟨n - 100, by omega⟩
      show decimalDigitsAux (m + 100 + 1) (m + 100) = _
      rw [decimalDigitsAux_ge (m + 100) (m + 100) (by omega),
        show m + 100 = (m + 99) + 1 from rfl,
        decimalDigitsAux_ge (m + 99) ((m + 99 + 1) / 10) (by omega),
        show m + 99 = (m + 98) + 1 from rfl,
        decimalDigitsAux_small (m + 98) ((m + 99 + 1) / 10 / 10) (by omega),
        Nat.div_div_eq_div_mul]
      simp

lemma digitVal_digitChar (d : Nat) (h : d < 10) :
    digitVal (Nat.digitChar d) = d := by
  interval_cases d <;> rfl

lemma isDigit_digitChar (d : Nat) (h : d < 10) :
    (Nat.digitChar d).isDigit = true := by
  interval_cases d <;> rfl

/-- The codec without the floating-point step is a true inverse pair: for
every millisecond count below 100 hours, rendering and re-parsing is the
identity. -/
lemma to_timedelta_renderMs (k : Nat) (hk : k ≤ 359999999) :
    to_timedelta (renderMs k) = some k := by
  have hh : k / 3600000 < 100 := by omega
  have hm : k % 3600000 / 60000 < 60 := by omega
  have hs : k % 60000 / 1000 < 60 := by omega
  have hx : k % 1000 < 1000 := by omega
  rw [renderMs, pad2_eq _ hh, pad2_eq _ (by omega), pad2_eq _ (by omega),
    pad3_eq _ hx]
  have d1 : k / 3600000 / 10 < 10 := by omega
  have d2 : k / 3600000 % 10 < 10 := by omega
  have d3 : k % 3600000 / 60000 / 10 < 10 := by omega
  have d4 : k % 3600000 / 60000 % 10 < 10 := by omega
  have d5 : k % 60000 / 1000 / 10 < 10 := by omega
  have d6 : k % 60000 / 1000 % 10 < 10 := by omega
  have d7 : k % 1000 / 100 < 10 := by omega
  have d8 : k % 1000 / 10 % 10 < 10 := by omega
  have d9 : k % 1000 % 10 < 10 := by omega
  simp only [List.cons_append, List.nil_append, to_timedelta,
    isDigit_digitChar _ d1, isDigit_digitChar _ d2, isDigit_digitChar _ d3,
    isDigit_digitChar _ d4, isDigit_digitChar _ d5, isDigit_digitChar _ d6,
    isDigit_digitChar _ d7, isDigit_digitChar _ d8, isDigit_digitChar _ d9,
    Bool.and_self, if_true,
    digitVal_digitChar _ d1, digitVal_digitChar _ d2, digitVal_digitChar _ d3,
    digitVal_digitChar _ d4, digitVal_digitChar _ d5, digitVal_digitChar _ d6,
    digitVal_digitChar _ d7, digitVal_digitChar _ d8, digitVal_digitChar _ d9,
    Option.some.injEq]
  omega

/-! # Claim theorems -/

/-- C3: the time-codec round trip `parse(format(s)) == s` fails on the
code at `s = 1.001` seconds (1001 milliseconds): `int(td.total_seconds() *
1000)` computes `int(1000.9999999999999) = 1000`, so the value formats as
`00:00:01,000` and parses back to `1000` milliseconds, one short.  Without
the floating-point step the same rendering would round-trip (third
conjunct), which localises the divergence to the float product. -/
theorem c3_time_codec_roundtrip_fails_at_1001ms :
    floatTotalMs 1001 = 1000 ∧
    format_srt_time 1001 = ("00:00:01,000").data ∧
    to_timedelta (format_srt_time 1001) = some 1000 ∧
    to_timedelta (renderMs 1001) = some 1001 := by
  refine ⟨by decide, by decide, by decide, by decide⟩

/-- C2: truncation happens before the offset shift, exactly as claimed:
a non-final block starting at or after the cap is clamped to a degenerate
`(cap, cap)` block, a block merely ending past the cap has only its end
clamped, and the shifted result is the truncated pair plus the offset.
The two concrete examples of the claim are instances: `(58s, 65s)` under a
60-second cap truncates to `(58s, 60s)` pre-shift, and a block starting at
72 seconds truncates to `(60s, 60s)` whatever its end. -/
theorem c2_truncation_applied_before_offset :
    (∀ s e cap off : Nat, cap ≤ s →
      truncate_block s e cap = (cap, cap) ∧
      shift_and_clean_line s e cap off = (cap + off, cap + off)) ∧
    (∀ s e cap off : Nat, s < cap → cap < e →
      truncate_block s e cap = (s, cap) ∧
      shift_and_clean_line s e cap off = (s + off, cap + off)) ∧
    truncate_block 58000 65000 60000 = (58000, 60000) ∧
    (∀ e : Nat, truncate_block 72000 e 60000 = (60000, 60000)) := by
  refine ⟨?_, ?_, by decide, ?_⟩
  · intro s e cap off hcap
    constructor
    · simp [truncate_block, hcap]
    · simp [shift_and_clean_line, truncate_block, hcap]
  · intro s e cap off h1 h2
    have hns : ¬ cap ≤ s := by omega
    constructor
    · simp [truncate_block, hns, h2]
    · simp only [shift_and_clean_line, truncate_block, if_neg hns, if_pos h2]
      have : ¬ cap + off < s + off := by omega
      simp [this]
  · intro e
    simp [truncate_block]

/-- C2 witness: the degenerate late-start example at concrete values,
shifted by a 5-second offset. -/
theorem c2_truncation_applied_before_offset_witness :
    truncate_block 72000 80000 60000 = (60000, 60000) ∧
    shift_and_clean_line 72000 80000 60000 5000 = (65000, 65000) :=
  c2_truncation_applied_before_offset.1 72000 80000 60000 5000 (by decide)

/-- C6 counterexample: the claim says a final-segment block is never
clamped however far its timestamps extend, but the code only substitutes
the finite sentinel cap `99999.0` seconds for the last chunk, so a
final-segment block spanning `100000s -> 100001s` (representable in the
`HH:MM:SS,mmm` format, which reaches past 359999 seconds) is clamped to
the degenerate `(99999s, 99999s)` instead of being shifted unchanged. -/
theorem c6_counterexample_final_segment_clamped_at_sentinel :
    shift_and_clean_line 100000000 100001000 (max_seconds_cap true 600000) 0 =
      (99999000, 99999000) ∧
    shift_and_clean_line 100000000 100001000 (max_seconds_cap true 600000) 0 ≠
      (100000000 + 0, 100001000 + 0) := by
  refine ⟨by decide, by decide⟩

/-- C6 amended: for the final segment the merge applies no truncation as
long as the block's timestamps stay below the 99999-second sentinel cap
(which every realistic segment-local timestamp does); at or beyond the
sentinel, clamping still applies. -/
theorem c6_final_segment_untruncated_below_sentinel :
    ∀ s e chunkMs off : Nat, s ≤ e → e ≤ 99999000 →
      shift_and_clean_line s e (max_seconds_cap true chunkMs) off =
        (s + off, e + off) := by
  intro s e chunkMs off hse he
  have hcap : max_seconds_cap true chunkMs = 99999000 := rfl
  rw [hcap]
  by_cases hs : s ≥ 99999000
  · have hseq : s = 99999000 := by omega
    have heq : e = 99999000 := by omega
    subst hseq
    subst heq
    simp [shift_and_clean_line, truncate_block]
  · simp only [shift_and_clean_line, truncate_block, if_neg hs,
      if_neg (by omega : ¬ e > 99999000)]
    have : ¬ e + off < s + off := by omega
    simp [this]

/-- C6 amended witness: the final segment of the 130-second scenario
(offset 120 seconds) passes a block through unclamped. -/
theorem c6_final_segment_untruncated_below_sentinel_witness :
    shift_and_clean_line 0 10000 (max_seconds_cap true 60000) 120000 =
      (120000, 130000) :=
  c6_final_segment_untruncated_below_sentinel 0 10000 60000 120000
    (by decide) (by decide)

/-- C7 counterexample: the claim says every block emitted by the merge
satisfies `end_seconds >= start_seconds` even when the input block is
inverted, but the transformers revision shifts both timestamps without any
repair, so an input block with timestamp `(5.0s, 3.0s)` is emitted with
`end < start`. -/
theorem c7_counterexample_python_merge_emits_inverted_block :
    (emitBlocks 0 [⟨some (5000, 3000), ['a']⟩] 1).1 =
      [⟨1, 5000, 3000, ['a']⟩] ∧ 3000 < 5000 := by
  refine ⟨by decide, by decide⟩

/-- C7 amended: the whisper.cpp revision's merge does enforce the
post-shift invariant `end >= start` for every block and every cap/offset,
repairing inversions by raising the end; the transformers revision merely
preserves the invariant, i.e. its emitted blocks satisfy `end >= start`
only under the assumption that the input blocks do. -/
theorem c7_post_shift_end_ge_start :
    (∀ s e cap off : Nat,
      (shift_and_clean_line s e cap off).1 ≤ (shift_and_clean_line s e cap off).2) ∧
    (∀ off : Nat, ∀ bs : List RawBlock, ∀ c : Nat,
      (∀ b ∈ bs, ∀ st en : Nat, b.timestamp = some (st, en) → st ≤ en) →
      ∀ blk ∈ (emitBlocks off bs c).1, blk.start ≤ blk.stop) := by
  constructor
  · intro s e cap off
    simp only [shift_and_clean_line]
    split
    · exact le_refl _
    · omega
  · intro off bs
    induction bs with
    | nil => intro c _ blk hblk; simp [emitBlocks] at hblk
    | cons b bs ih =>
      intro c hok blk hblk
      have hbs : ∀ b' ∈ bs, ∀ st en : Nat, b'.timestamp = some (st, en) → st ≤ en :=
        fun b' hb' => hok b' (List.mem_cons_of_mem b hb')
      obtain ⟨ts, text⟩ := b
      rcases ts with - | ⟨st, en⟩
      · rw [emitBlocks] at hblk
        exact ih c hbs blk hblk
      · rw [emitBlocks] at hblk
        by_cases hstr : strip text = []
        · rw [if_pos hstr] at hblk
          exact ih c hbs blk hblk
        · rw [if_neg hstr] at hblk
          rcases List.mem_cons.mp hblk with heq | hmem
          · subst heq
            have := hok ⟨some (st, en), text⟩ (List.mem_cons_self _ bs) st en rfl
            simpa using Nat.add_le_add_right this off
          · exact ih (c + 1) hbs blk hmem

/-- C7 amended witness: a well-formed block through the transformers merge
keeps `end >= start`. -/
theorem c7_post_shift_end_ge_start_witness :
    (SrtBlock.mk 1 6000 7000 ['a']).start ≤ (SrtBlock.mk 1 6000 7000 ['a']).stop :=
  c7_post_shift_end_ge_start.2 5000 [⟨some (1000, 2000), ['a']⟩] 1
    (by
      intro b hb st en hts
      rcases List.mem_singleton.mp hb with rfl
      simp only [RawBlock.mk.injEq] at hts ⊢
      rcases hts with ⟨h1, h2⟩
      omega)
    ⟨1, 6000, 7000, ['a']⟩ (by decide)

lemma reindexAux_counter_le (ls : List (List Char)) :
    ∀ c : Nat, ∀ skip : Bool, c ≤ (reindexAux c skip ls).2 := by
  induction ls with
  | nil => intro c skip; simp [reindexAux]
  | cons l ls ih =>
    intro c skip
    rw [reindexAux]
    by_cases hb : (skip && isBlankLine l) = true
    · rw [if_pos hb]; exact ih c true
    · rw [if_neg hb]
      by_cases hi : isIndexLine l = true
      · rw [if_pos hi]
        exact Nat.le_trans (Nat.le_succ c) (ih (c + 1) true)
      · rw [if_neg hi]
        exact ih c false

lemma mergeSegmentsCpp_counter_le (segs : List (Option (List (List Char)))) :
    ∀ c : Nat, c ≤ (mergeSegmentsCpp c segs).2 := by
  induction segs with
  | nil => intro c; simp [mergeSegmentsCpp]
  | cons o rest ih =>
    intro c
    rcases o with - | seg
    · rw [mergeSegmentsCpp]; exact ih c
    · rw [mergeSegmentsCpp]
      exact Nat.le_trans (reindexAux_counter_le seg c false) (ih _)

lemma mergeSegmentsCpp_skips_failed (post : List (Option (List (List Char)))) :
    ∀ pre : List (Option (List (List Char))), ∀ c : Nat,
      mergeSegmentsCpp c (pre ++ none :: post) = mergeSegmentsCpp c (pre ++ post) := by
  intro pre
  induction pre with
  | nil => intro c; rw [List.nil_append, List.nil_append, mergeSegmentsCpp]
  | cons o pre ih =>
    intro c
    rcases o with - | seg
    · rw [List.cons_append, List.cons_append, mergeSegmentsCpp, mergeSegmentsCpp, ih c]
    · rw [List.cons_append, List.cons_append, mergeSegmentsCpp, mergeSegmentsCpp, ih]

lemma assignedIndicesAux_consecutive (ls : List (List Char)) :
    ∀ c : Nat, ∀ skip : Bool,
      assignedIndicesAux c skip ls =
        List.range' c (assignedIndicesAux c skip ls).length := by
  induction ls with
  | nil => intro c skip; simp [assignedIndicesAux]
  | cons l ls ih =>
    intro c skip
    rw [assignedIndicesAux]
    by_cases hb : (skip && isBlankLine l) = true
    · rw [if_pos hb]; exact ih c true
    · rw [if_neg hb]
      by_cases hi : isIndexLine l = true
      · rw [if_pos hi]
        have h1 := ih (c + 1) true
        rw [List.length_cons, List.range'_succ]
        exact congrArg (c :: ·) h1
      · rw [if_neg hi]
        exact ih c false

/-- C1: the SRT re-index counter is one monotonically increasing counter
shared across the whole asset.  Concretely, merging the blocks of three
segments of two blocks each (counter starting at 1) yields the final track
with index lines `1,2,3,4,5,6` in that order and leaves the counter at 7;
with the middle segment failed, the two surviving segments produce the
continuous indices `1,2,3,4`.  In general a failed segment is invisible to
the merge (fourth conjunct), the counter never decreases (third conjunct),
and the indices handed out by a re-indexing pass are always the
consecutive range starting at the current counter (fifth conjunct). -/
theorem c1_reindex_single_counter_across_asset :
    (mergeSegmentsCpp 1 [some demoSeg, some demoSeg, some demoSeg]).1 =
      [['1'], ("00:00:00,000 --> 00:00:01,000").data, ("Halo dunia").data, [],
       ['2'], ("00:00:01,000 --> 00:00:02,000").data, ("Apa kabar").data, [],
       ['3'], ("00:00:00,000 --> 00:00:01,000").data, ("Halo dunia").data, [],
       ['4'], ("00:00:01,000 --> 00:00:02,000").data, ("Apa kabar").data, [],
       ['5'], ("00:00:00,000 --> 00:00:01,000").data, ("Halo dunia").data, [],
       ['6'], ("00:00:01,000 --> 00:00:02,000").data, ("Apa kabar").data, []] ∧
    (mergeSegmentsCpp 1 [some demoSeg, some demoSeg, some demoSeg]).2 = 7 ∧
    (mergeSegmentsCpp 1 [some demoSeg, none, some demoSeg]).1 =
      [['1'], ("00:00:00,000 --> 00:00:01,000").data, ("Halo dunia").data, [],
       ['2'], ("00:00:01,000 --> 00:00:02,000").data, ("Apa kabar").data, [],
       ['3'], ("00:00:00,000 --> 00:00:01,000").data, ("Halo dunia").data, [],
       ['4'], ("00:00:01,000 --> 00:00:02,000").data, ("Apa kabar").data, []] ∧
    (∀ c : Nat, ∀ segs : List (Option (List (List Char))),
      c ≤ (mergeSegmentsCpp c segs).2) ∧
    (∀ c : Nat, ∀ pre post : List (Option (List (List Char))),
      mergeSegmentsCpp c (pre ++ none :: post) = mergeSegmentsCpp c (pre ++ post)) ∧
    (∀ c : Nat, ∀ ls : List (List Char),
      assignedIndices c ls = List.range' c (assignedIndices c ls).length) := by
  refine ⟨by decide, by decide, by decide, ?_, ?_, ?_⟩
  · intro c segs; exact mergeSegmentsCpp_counter_le segs c
  · intro c pre post; exact mergeSegmentsCpp_skips_failed post pre c
  · intro c ls; exact assignedIndicesAux_consecutive ls c false

/-- C10: the external-engine revision re-indexes with the line-anchored
regex `^\d+\s*$`, so a caption-text line that is a bare number is treated
as a block index: in `numericSeg` the caption text `42` of block 1 becomes
the counter value `2`, block 2's real index becomes `3`, the counter ends
at 4 having advanced past the text line, and (because `\s*` also matches
the following blank line's newline) the separator after the numeric text
line is absorbed.  The last conjunct states the general rule: any line
matching the pattern is replaced by the decimal rendering of the current
counter and processing continues with the counter advanced. -/
theorem c10_reindex_renumbers_numeric_caption_lines :
    isIndexLine ['4', '2'] = true ∧
    (reindexLines 1 numericSeg).1 =
      [['1'], ("00:00:00,000 --> 00:00:01,000").data, ['2'],
       ['3'], ("00:00:01,000 --> 00:00:02,000").data, ("teks biasa").data] ∧
    (reindexLines 1 numericSeg).2 = 4 ∧
    (∀ c : Nat, ∀ l : List Char, ∀ ls : List (List Char), isIndexLine l = true →
      (reindexAux c false (l :: ls)).1.head? = some (decimalDigits c) ∧
      (reindexAux c false (l :: ls)).2 = (reindexAux (c + 1) true ls).2) := by
  refine ⟨by decide, by decide, by decide, ?_⟩
  intro c l ls hl
  rw [reindexAux, Bool.false_and, if_neg (by decide), if_pos hl]
  exact ⟨rfl, rfl⟩

/-- C10 witness: the general rule applied to the bare-number line `42`
with the counter at 9. -/
theorem c10_reindex_renumbers_numeric_caption_lines_witness :
    (reindexAux 9 false [['4', '2']]).1.head? = some (decimalDigits 9) :=
  (c10_reindex_renumbers_numeric_caption_lines.2.2.2 9 ['4', '2'] [] (by decide)).1

/-- C5: per-segment failure isolation.  With segment 2 of 3 failed, the
final transcript is exactly segment 1's stripped paragraph followed by
segment 3's (first conjunct).  In general a failed segment leaves the
assembled transcript exactly as if that segment were absent, in both
revisions (second and third conjuncts), and the whisper.cpp driver always
returns successfully whatever the per-segment outcomes are — per-segment
engine failures never escalate to a job failure (fourth conjunct). -/
theorem c5_per_segment_failure_isolation :
    (∀ t1 t3 : List Char, ∀ s1 s3 : Option (List (List Char)),
      driveTxt [EngineOutcome.ok (some t1) s1, EngineOutcome.fail,
        EngineOutcome.ok (some t3) s3] =
        (strip t1 ++ ['\n', '\n']) ++ (strip t3 ++ ['\n', '\n'])) ∧
    (∀ pre post : List EngineOutcome,
      driveTxt (pre ++ EngineOutcome.fail :: post) = driveTxt (pre ++ post)) ∧
    (∀ pre post : List PyOutcome,
      pyDriveTxt (pre ++ PyOutcome.fail :: post) = pyDriveTxt (pre ++ post)) ∧
    (∀ outs : List EngineOutcome,
      (transcribe_with_whisper_cpp outs).isOk = true) := by
  refine ⟨?_, ?_, ?_, ?_⟩
  · intro t1 t3 s1 s3
    simp [driveTxt]
  · intro pre post
    induction pre with
    | nil => rw [List.nil_append, List.nil_append, driveTxt]
    | cons o pre ih =>
      rcases o with - | ⟨t, s⟩
      · rw [List.cons_append, List.cons_append, driveTxt, driveTxt, ih]
      · rcases t with - | t
        · rw [List.cons_append, List.cons_append, driveTxt, driveTxt, ih]
        · rw [List.cons_append, List.cons_append, driveTxt, driveTxt, ih]
  · intro pre post
    induction pre with
    | nil => rw [List.nil_append, List.nil_append, pyDriveTxt]
    | cons o pre ih =>
      rcases o with - | t
      · rw [List.cons_append, List.cons_append, pyDriveTxt, pyDriveTxt, ih]
      · rw [List.cons_append, List.cons_append, pyDriveTxt, pyDriveTxt, ih]
  · intro outs
    rfl

/-- C8 counterexample: the claim says a whitespace-only segment text
contributes nothing to the final document, but the whisper.cpp revision
appends `content.strip() + "\n\n"` unconditionally, so a successful
segment whose `.txt` artifact is a single space grows the (initially
empty) transcript by a bare blank-paragraph separator. -/
theorem c8_counterexample_whitespace_segment_contributes_separator :
    driveTxt [EngineOutcome.ok (some [' ']) none] = ['\n', '\n'] ∧
    (['\n', '\n'] : List Char) ≠ [] := by
  refine ⟨by decide, by decide⟩

/-- C8 amended: every successful segment with a present `.txt` artifact
appends `strip(text) + "\n\n"` in the whisper.cpp revision, even when the
stripped text is empty (first conjunct); the transformers revision skips
empty/whitespace-only text entirely (second conjunct) and appends
`strip(text) + "\n\n"` otherwise (third conjunct); in both revisions the
remaining segments' paragraphs follow in order behind the append. -/
theorem c8_transcript_append_policy :
    (∀ t : List Char, ∀ s : Option (List (List Char)), ∀ rest : List EngineOutcome,
      driveTxt (EngineOutcome.ok (some t) s :: rest) =
        (strip t ++ ['\n', '\n']) ++ driveTxt rest) ∧
    (∀ t : List Char, ∀ rest : List PyOutcome, strip t = [] →
      pyDriveTxt (PyOutcome.ok t :: rest) = pyDriveTxt rest) ∧
    (∀ t : List Char, ∀ rest : List PyOutcome, strip t ≠ [] →
      pyDriveTxt (PyOutcome.ok t :: rest) =
        (strip t ++ ['\n', '\n']) ++ pyDriveTxt rest) := by
  refine ⟨?_, ?_, ?_⟩
  · intro t s rest; rw [driveTxt]
  · intro t rest h; rw [pyDriveTxt, if_pos h]
  · intro t rest h; rw [pyDriveTxt, if_neg h]

/-- C8 amended witness: a whitespace-only segment in the transformers
revision leaves the document unchanged. -/
theorem c8_transcript_append_policy_witness :
    pyDriveTxt [PyOutcome.ok [' ']] = [] :=
  (c8_transcript_append_policy.2.1 [' '] [] (by decide)).trans (by decide)

/-- C9 counterexample: the claim says every consumed segment's temporary
media file is deleted before the next segment starts, but
`transcribe_with_whisper_cpp` never unlinks the chunk's media file — after
a fully successful segment the media file still exists. -/
theorem c9_counterexample_cpp_media_file_survives :
    (cppSegTempsAfter (EngineOutcome.ok (some ['a']) (some [['1']]))).media = true ∧
    ¬ (cppSegTempsAfter (EngineOutcome.ok (some ['a']) (some [['1']]))).media = false := by
  refine ⟨by decide, by decide⟩

/-- C9 amended: in the transformers revision the `finally` block deletes
the segment's media file whether the segment succeeded or failed (and
there are no artifact files); in the whisper.cpp revision the intermediate
`.txt`/`.srt` artifacts are always gone once the segment is consumed, but
the media file is never deleted by the driver. -/
theorem c9_segment_cleanup_policy :
    (∀ out : PyOutcome,
      pySegTempsAfter out = { media := false, txt := false, srt := false }) ∧
    (∀ out : EngineOutcome,
      cppSegTempsAfter out = { media := true, txt := false, srt := false }) := by
  constructor
  · intro out; cases out <;> rfl
  · intro out; cases out <;> rfl

lemma rangeStepAux_eq (C D : Nat) (hC : 0 < C) :
    ∀ fuel i : Nat, D ≤ i + fuel * C →
      rangeStepAux C D fuel i = List.range' i ((D - i + C - 1) / C) C := by
  intro fuel
  induction fuel with
  | zero =>
    intro i h
    have e : D - i + C - 1 = C - 1 := by omega
    rw [rangeStepAux, e, Nat.div_eq_of_lt (by omega)]
    rfl
  | succ fuel ih =>
    intro i h
    rw [rangeStepAux]
    by_cases hi : i < D
    · rw [if_pos ⟨hC, hi⟩]
      have emul : (fuel + 1) * C = fuel * C + C := by ring
      have hrec := ih (i + C) (by omega)
      rw [hrec]
      have hcount : (D - i + C - 1) / C = (D - (i + C) + C - 1) / C + 1 := by
        by_cases hle : D ≤ i + C
        · have e1 : D - (i + C) + C - 1 = C - 1 := by omega
          have e2 : D - i + C - 1 = (D - i - 1) + C := by omega
          rw [e1, e2, Nat.add_div_right _ hC,
            Nat.div_eq_of_lt (by omega : D - i - 1 < C),
            Nat.div_eq_of_lt (by omega : C - 1 < C)]
        · have e2 : D - i + C - 1 = (D - (i + C) + C - 1) + C := by omega
          rw [e2, Nat.add_div_right _ hC]
      rw [hcount, List.range'_succ]
    · rw [if_neg (by tauto)]
      have e : D - i + C - 1 = C - 1 := by omega
      rw [e, Nat.div_eq_of_lt (by omega)]
      rfl

lemma split_audio_eq (D C : Nat) (hC : 0 < C) :
    split_audio D C =
      (List.range' 0 ((D + C - 1) / C) C).map fun i => (i, min C (D - i)) := by
  unfold split_audio rangeStep
  have hfuel : D ≤ 0 + (D - 0) * C := by
    rw [Nat.sub_zero, Nat.zero_add]
    exact Nat.le_mul_of_pos_right D hC
  rw [rangeStepAux_eq C D hC (D - 0) 0 hfuel]
  have e : D - 0 + C - 1 = D + C - 1 := by omega
  rw [e]

lemma split_audio_length (D C : Nat) (hC : 0 < C) :
    (split_audio D C).length = (D + C - 1) / C := by
  rw [split_audio_eq D C hC, List.length_map, List.length_range']

lemma split_audio_getElem (D C : Nat) (hC : 0 < C) (j : Nat)
    (hj : j < (split_audio D C).length) :
    (split_audio D C)[j] = (j * C, min C (D - j * C)) := by
  rw [List.getElem_of_eq (split_audio_eq D C hC) hj, List.getElem_map,
    List.getElem_range' j (by
      rw [split_audio_length D C hC] at hj
      simpa using hj)]
  simp [Nat.mul_comm]

/-- C4: the Segmenter produces exactly `ceil(D / C)` segments; segment `j`
(0-based) starts at `j * C`; every segment but the last lasts exactly `C`;
the last segment starts at `(n - 1) * C` and lasts the remainder
`D - (n - 1) * C`, which never exceeds `C`. -/
theorem c4_segmenter_ceil_count_and_durations (D C : Nat) (hD : 0 < D) (hC : 0 < C) :
    (split_audio D C).length = (D + C - 1) / C ∧
    (∀ j : Nat, ∀ hj : j < (split_audio D C).length,
      (split_audio D C)[j].1 = j * C) ∧
    (∀ j : Nat, ∀ hj1 : j + 1 < (split_audio D C).length,
      (split_audio D C)[j].2 = C) ∧
    (split_audio D C).getLast? =
      some ((((D + C - 1) / C) - 1) * C, D - (((D + C - 1) / C) - 1) * C) ∧
    D - (((D + C - 1) / C) - 1) * C ≤ C := by
  have hlen := split_audio_length D C hC
  have hone : 1 ≤ (D + C - 1) / C := by
    rw [Nat.one_le_div_iff hC]
    omega
  obtain ⟨n, hn⟩ : ∃ n, (D + C - 1) / C = n + 1 := ⟨(D + C - 1) / C - 1, by omega⟩
  have hdm := Nat.div_add_mod (D + C - 1) C
  rw [hn] at hdm
  have hmodlt : (D + C - 1) % C < C := Nat.mod_lt _ hC
  have em : C * (n + 1) = n * C + C := by ring
  rw [em] at hdm
  have hlast : n * C < D := by omega
  have hDle : D ≤ n * C + C := by omega
  refine ⟨hlen, ?_, ?_, ?_, ?_⟩
  · intro j hj
    rw [split_audio_getElem D C hC j hj]
  · intro j hj1
    have hj : j < (split_audio D C).length := by omega
    rw [split_audio_getElem D C hC j hj]
    have hjn : j + 1 ≤ n := by
      rw [hlen, hn] at hj1
      omega
    have hmono : (j + 1) * C ≤ n * C := Nat.mul_le_mul_right C hjn
    have ejC : (j + 1) * C = j * C + C := by ring
    have hfits : C ≤ D - j * C := by omega
    simp [Nat.min_eq_left hfits]
  · rw [split_audio_eq D C hC, List.getLast?_map, hn]
    have hb : n + 1 - 1 < (List.range' 0 (n + 1) C).length := by
      rw [List.length_range']
      omega
    have hlast? : (List.range' 0 (n + 1) C).getLast? = some (0 + C * n) := by
      rw [List.getLast?_eq_getElem?, List.length_range',
        List.getElem?_eq_getElem hb, List.getElem_range' (n + 1 - 1) hb]
      simp
    rw [hlast?]
    simp only [Option.map_some', Nat.zero_add, Nat.add_sub_cancel]
    have e2 : C * n = n * C := Nat.mul_comm C n
    have hrem : min C (D - C * n) = D - C * n := by
      rw [e2]
      exact Nat.min_eq_right (by omega)
    simp [hrem, e2]
    omega
  · rw [hn, Nat.add_sub_cancel]
    omega

/-- C4 witness: the 130-second / 60-second scenario of the specification
(values in milliseconds): three segments, of which the first two last the
full 60 seconds and the last one the remaining 10 seconds. -/
theorem c4_segmenter_ceil_count_and_durations_witness :
    (split_audio 130000 60000).length = (130000 + 60000 - 1) / 60000 ∧
    (split_audio 130000 60000).getLast? =
      some ((((130000 + 60000 - 1) / 60000) - 1) * 60000,
        130000 - (((130000 + 60000 - 1) / 60000) - 1) * 60000) :=
  ⟨(c4_segmenter_ceil_count_and_durations 130000 60000 (by decide) (by decide)).1,
   (c4_segmenter_ceil_count_and_durations 130000 60000 (by decide) (by decide)).2.2.2.1⟩

end WhisperAct
